import Mathlib

/-!
Verification of the job-orchestration / progress-broadcast subsystem of
`backup-unraid-state` (`src/app/app.py`) against its specification.

The Python source is shallowly embedded into Lean:
* the per-job-class progress dictionary and its SSE queues become a `Registry`
  value (every Python `queue.Queue()` here is created without `maxsize`, i.e.
  unbounded, so `put_nowait` never raises; a queue is a `List ProgressEvent`);
* filesystem and subprocess primitives (`os.listdir`, `os.stat`,
  `os.path.exists`, reading `.backup_size`, the `du -sb` fallback, `os.walk`)
  become fields of an explicit environment record `FS`; a raised `OSError`
  is an `Except.error`;
* Python `str` operations used by the code (`strip`, `split`, `startswith`,
  `endswith`, `lower`, `int(...)`) are re-implemented structurally over
  `String.data` so that concrete runs evaluate inside the kernel.
  `int(...)` is modelled on optionally signed decimal digit strings
  (CPython's underscore digit-grouping is not modelled, no claim depends
  on it); `strip`/`lower` are modelled on the ASCII range actually used.
* datetimes are seconds counted from an (arbitrary) Monday 00:00, so
  `weekday()` is `/ 86400 % 7` with Monday = 0, exactly Python's numbering;
  `strftime "%Y-%m-%d %H:%M"` renders minutes and is strictly monotone in
  the minute count for all representable years, so an artifact's `date`
  field is embedded as its minute count `mtime / 60` (order-isomorphic to
  the displayed string);
* `format_size` only renders byte counts for display (floating point),
  so sizes are carried as raw integer byte counts; the scanner's literal
  `"~"` placeholder (used when a snapshot size resolves to 0) is `none`.
-/

/-! ### Python string primitives (structural, kernel-evaluable) -/

/-- `p` is an initial segment of `s` (Python `s.startswith(p)` on `.data`). -/
def strStarts : List Char → List Char → Bool
  | [], _ => true
  | _ :: _, [] => false
  | p :: ps, c :: cs => p = c && strStarts ps cs

/-- Python `s.endswith(pat)`. -/
def strEnds (pat s : List Char) : Bool := strStarts pat.reverse s.reverse

/-- The whitespace characters stripped by Python `str.strip()`. -/
def pySpace (c : Char) : Bool :=
  c = ' ' || c = '\t' || c = '\n' || c = '\r' || c = '\x0b' || c = '\x0c'

/-- Python `str.strip()`. -/
def pyStrip (cs : List Char) : List Char :=
  ((cs.dropWhile pySpace).reverse.dropWhile pySpace).reverse

/-- Python `s.split(sep)` for a one-character separator. -/
def splitChar (sep : Char) : List Char → List (List Char)
  | [] => [[]]
  | c :: cs =>
    let r := splitChar sep cs
    if c = sep then [] :: r
    else
      match r with
      | [] => [[c]]
      | h :: t => (c :: h) :: t

/-- Python `s.split(sep, maxsplit)` for a one-character separator. -/
def splitCharMax (sep : Char) (maxsplit : Nat) (cs : List Char) : List (List Char) :=
  let parts := splitChar sep cs
  if parts.length ≤ maxsplit + 1 then parts
  else parts.take maxsplit ++ [List.intercalate [sep] (parts.drop maxsplit)]

/-- ASCII lowercasing of one character (what `str.lower()` does on the
schedule's day names). -/
def lowerChar (c : Char) : Char :=
  if 65 ≤ c.toNat && c.toNat ≤ 90 then Char.ofNat (c.toNat + 32) else c

/-- Python `s.lower()`. -/
def pyLower (s : String) : String := ⟨s.data.map lowerChar⟩

/-- Code-point comparison of characters, as Python `<` on 1-char strings. -/
def charLtB (a b : Char) : Bool := Nat.blt a.toNat b.toNat

/-- Lexicographic `≤` on code points: Python string comparison. -/
def lexLe : List Char → List Char → Bool
  | [], _ => true
  | _ :: _, [] => false
  | a :: as, b :: bs => if a = b then lexLe as bs else charLtB a b

def digitsVal (s : List Char) : Nat := s.foldl (fun a c => a * 10 + (c.toNat - 48)) 0

def allDigits (s : List Char) : Bool :=
  !s.isEmpty && s.all (fun c => 48 ≤ c.toNat && c.toNat ≤ 57)

/-- Python `int(s)` on a decimal string: surrounding whitespace stripped,
optional sign, at least one digit; `none` models the raised `ValueError`. -/
def pyInt (s : String) : Option Int :=
  let cs := pyStrip s.data
  match cs with
  | '-' :: rest => if allDigits rest then some (-(digitsVal rest : Int)) else none
  | '+' :: rest => if allDigits rest then some ((digitsVal rest : Int)) else none
  | _ => if allDigits cs then some ((digitsVal cs : Int)) else none

/-- `os.path.join` for the relative components the code joins. -/
def pjoin (a b : String) : String := a ++ "/" ++ b

/-! ### Python's stable `list.sort(key=…, reverse=True)`

`pyInsert ge x l` puts `x` in front of the first element it is
greater-or-equal to (`ge x y` = "x sorts at or before y"), so
`pySortDesc` is the stable descending sort Python performs. -/

def pyInsert (ge : α → α → Bool) (x : α) : List α → List α
  | [] => [x]
  | y :: ys => if ge x y then x :: y :: ys else y :: pyInsert ge x ys

def pySortDesc (ge : α → α → Bool) (l : List α) : List α := l.foldr (pyInsert ge) []

/-- Sortedness predicate for a Bool comparator: each element is `ge` every
later one. -/
def GeSorted (ge : α → α → Bool) (l : List α) : Prop :=
  l.Pairwise (fun a b => ge a b = true)

/-! ### Job Registry and Event Bus (`app.py` lines 35–103)

`progress_state` holds one mutable dict per backup type and
`progress_queues` one list of SSE queues per backup type; both are
guarded by `progress_lock`, so each call to `update_progress` /
`reset_progress` is one atomic step on a `Registry` value. -/

inductive BackupType where
  | vm
  | appdata
  | plugins
  | flash
deriving DecidableEq, Repr

structure JobState where
  active : Bool
  percent : Int
  phase : String
  eta : String
  error : Option String
  complete : Bool
  pid : Option Int
deriving DecidableEq, Repr

structure ProgressEvent where
  percent : Int
  phase : String
  eta : String
  error : Option String
  complete : Bool
  log : Option String
deriving DecidableEq, Repr

structure Registry where
  states : BackupType → JobState
  queues : BackupType → List (List ProgressEvent)

/-- The field merge performed by `update_progress` under `progress_lock`
(lines 63–73): each of `percent`/`phase`/`eta`/`error` is written only when
the argument is not `None`; `complete` is written unconditionally from the
argument (whose Python default is `False`); `active` is recomputed as
`not complete and error is None` where `complete` and `error` are the
*call arguments* — not the merged fields — so a call that leaves a stored
error untouched (argument `None`) recomputes `active` as if there were no
error. -/
def applyUpdate (s : JobState) (percent : Option Int) (phase : Option String)
    (eta : Option String) (error : Option String) (complete : Bool) : JobState :=
  let s1 : JobState :=
    { s with
      percent := percent.getD s.percent
      phase := phase.getD s.phase
      eta := eta.getD s.eta
      error := match error with | some e => some e | none => s.error
      complete := complete }
  { s1 with active := !complete && error.isNone }

/-- The event dict built at lines 76–83 from the merged state. -/
def mkEvent (s : JobState) (log_line : Option String) : ProgressEvent :=
  { percent := s.percent, phase := s.phase, eta := s.eta,
    error := s.error, complete := s.complete, log := log_line }

/-- `update_progress(backup_type, …)` (lines 60–90): merge the supplied
fields, recompute `active`, build one event and `put_nowait` it on every
queue registered for this backup type (the queues are unbounded, so the
`except: pass` around `put_nowait` never fires). -/
def update_progress (reg : Registry) (bt : BackupType) (percent : Option Int)
    (phase : Option String) (eta : Option String) (error : Option String)
    (complete : Bool) (log_line : Option String) : Registry :=
  let s := applyUpdate (reg.states bt) percent phase eta error complete
  let ev := mkEvent s log_line
  { states := fun b => if b = bt then s else reg.states b
    queues := fun b => if b = bt then (reg.queues bt).map (fun q => q ++ [ev]) else reg.queues b }

/-- The fresh state installed by `reset_progress` (lines 92–103). -/
def resetState : JobState :=
  { active := true, percent := 0, phase := "Starting...", eta := "Calculating...",
    error := none, complete := false, pid := none }

/-- `reset_progress(backup_type)`: replaces the state dict wholesale and
touches no queue. -/
def reset_progress (reg : Registry) (bt : BackupType) : Registry :=
  { reg with states := fun b => if b = bt then resetState else reg.states b }

/-! ### Process Supervisor: stdout line classification (`app.py` lines 693–711)

Each iteration of `for line in process.stdout` strips the line, skips it if
empty, parses a `PROGRESS|percent|phase|eta` marker (`split("|", 3)`,
`int(parts[1])` dropped silently on `ValueError`), and otherwise pushes the
line as a plain log line. -/

def process_line (reg : Registry) (bt : BackupType) (rawLine : String) : Registry :=
  let line : String := ⟨pyStrip rawLine.data⟩
  if line.data.isEmpty then reg
  else if strStarts "PROGRESS|".data line.data then
    let parts := splitCharMax '|' 3 line.data
    if parts.length ≥ 3 then
      match pyInt ⟨parts.getD 1 []⟩ with
      | some percent =>
        let phase : String := ⟨parts.getD 2 []⟩
        let eta : String := if parts.length > 3 then ⟨parts.getD 3 []⟩ else ""
        update_progress reg bt (some percent) (some phase) (some eta) none false (some phase)
      | none => reg
    else reg
  else
    update_progress reg bt none none none none false (some line)

/-! ### Filesystem / subprocess environment

The primitives the scanner and supervisor call.  `Except.error ()` models a
raised `OSError` (or, for `duSize`, any of: non-zero `du` exit, timeout, or
an unparsable first token — all of which leave the size accumulator at 0). -/

structure FileInfo where
  st_size : Nat
  st_mtime : Nat
deriving DecidableEq, Repr

structure FS where
  pathExists : String → Bool
  listdir : String → Except Unit (List String)
  stat : String → Except Unit FileInfo
  isdir : String → Bool
  readFile : String → Except Unit String
  duSize : String → Except Unit Int
  walk : String → List (String × List String)
  getsize : String → Except Unit Nat

/-- The two settings of `settings.json` the embedded functions read. -/
structure Config where
  backup_destination : String
  incremental_enabled : Bool
deriving Repr

/-! ### Inventory Scanner (`get_existing_backups`, `app.py` lines 394–530) -/

structure Artifact where
  name : String
  path : String
  /-- `some n`: the dict carries `format_size(n)`; `none`: the `"~"`
  placeholder shown when a snapshot size resolves to 0. -/
  size : Option Int
  /-- the minute count `st_mtime / 60`, order-isomorphic to the
  `strftime("%Y-%m-%d %H:%M")` string stored in the dict's `date` key. -/
  date : Nat
  mode : String
deriving DecidableEq, Repr

/-- descending-by-name comparator for `backup_files.sort(reverse=True)`. -/
def nameGe (a b : String) : Bool := lexLe b.data a.data

/-- descending-by-date comparator for `sort(key=lambda x: x['date'], reverse=True)`. -/
def artDateGe (a b : Artifact) : Bool := Nat.ble b.date a.date

/-- `scan_tar_dir(path, limit=5)` (lines 402–428): list the directory
(`[]` on a missing path or a listing error), keep names ending in `.tar` or
`.tar.gz`, sort descending by name, stat the first `limit` of them skipping
any entry whose `stat` raises. -/
def scan_tar_dir (fs : FS) (path : String) (limit : Nat) : List Artifact :=
  if !(fs.pathExists path) then []
  else
    match fs.listdir path with
    | .error _ => []
    | .ok files =>
      let backup_files := files.filter
        (fun f => strEnds ".tar".data f.data || strEnds ".tar.gz".data f.data)
      let sorted := pySortDesc nameGe backup_files
      (sorted.take limit).filterMap (fun f =>
        let fpath := pjoin path f
        match fs.stat fpath with
        | .error _ => none
        | .ok st =>
          some { name := f, path := fpath, size := some (st.st_size : Int),
                 date := st.st_mtime / 60, mode := "tar" })

/-- Lines 457–465: `total_size = 0`, then `int(open(size_file).read().strip())`
if the `.backup_size` marker exists, any failure caught leaving 0. -/
def snapSizeFromFile (fs : FS) (snapPath : String) : Int :=
  let size_file := pjoin snapPath ".backup_size"
  if fs.pathExists size_file then
    match fs.readFile size_file with
    | .error _ => 0
    | .ok content =>
      match pyInt ⟨pyStrip content.data⟩ with
      | some n => n
      | none => 0
  else 0

/-- `scan_rsync_snapshots(path, limit=5)` (lines 430–488): list
`path/snapshots` (`[]` on a missing path or listing error), keep the
subdirectories whose `stat` succeeds, sort by mtime descending, and report
the first `limit` with a size from the `.backup_size` marker, the
`du -sb` fallback when the marker gave 0, or the `"~"` placeholder. -/
def scan_rsync_snapshots (fs : FS) (path : String) (limit : Nat) : List Artifact :=
  let snapshots_dir := pjoin path "snapshots"
  if !(fs.pathExists snapshots_dir) then []
  else
    match fs.listdir snapshots_dir with
    | .error _ => []
    | .ok items =>
      let snapshots := items.filterMap (fun item =>
        let item_path := pjoin snapshots_dir item
        if fs.isdir item_path then
          match fs.stat item_path with
          | .error _ => none
          | .ok st => some (item, item_path, st.st_mtime)
        else none)
      let sorted := pySortDesc (fun a b : String × String × Nat => Nat.ble b.2.2 a.2.2) snapshots
      (sorted.take limit).map (fun snap =>
        let total1 := snapSizeFromFile fs snap.2.1
        let total_size : Int :=
          if total1 = 0 then
            match fs.duSize snap.2.1 with
            | .error _ => 0
            | .ok n => n
          else total1
        { name := snap.1, path := snap.2.1,
          size := if total_size = 0 then none else some total_size,
          date := snap.2.2 / 60, mode := "rsync" })

structure Backups where
  vms : List Artifact
  appdata : List Artifact
  plugins : List Artifact
  flash : List Artifact
deriving Repr

def namingSchemes : List String := ["weekly", "daily", "monthly"]

/-- The first appdata loop (lines 503–511): `backup_<naming>_tar` for every
naming scheme, plus the legacy unsuffixed `backup_<naming>` when it exists
and has no `snapshots` subdirectory. -/
def appdata_tar_pool (fs : FS) (backup_path : String) : List Artifact :=
  namingSchemes.flatMap (fun naming =>
    scan_tar_dir fs (pjoin backup_path ("backup_" ++ naming ++ "_tar")) 5 ++
    (let old_path := pjoin backup_path ("backup_" ++ naming)
     if fs.pathExists old_path && !(fs.pathExists (pjoin old_path "snapshots")) then
       scan_tar_dir fs old_path 5
     else []))

/-- The second appdata loop (lines 513–521): `backup_<naming>_rsync` for every
naming scheme, plus the legacy unsuffixed directory when it does have a
`snapshots` subdirectory. -/
def appdata_rsync_pool (fs : FS) (backup_path : String) : List Artifact :=
  namingSchemes.flatMap (fun naming =>
    scan_rsync_snapshots fs (pjoin backup_path ("backup_" ++ naming ++ "_rsync")) 5 ++
    (let old_path := pjoin backup_path ("backup_" ++ naming)
     if fs.pathExists (pjoin old_path "snapshots") then
       scan_rsync_snapshots fs old_path 5
     else []))

/-- `get_existing_backups()` (lines 394–530). -/
def get_existing_backups (fs : FS) (cfg : Config) : Backups :=
  let backup_path := cfg.backup_destination
  let vms := scan_tar_dir fs (pjoin backup_path "VMs") 5
  let plugins := scan_tar_dir fs (pjoin backup_path "plugins") 5
  let flash := scan_tar_dir fs (pjoin backup_path "flash") 5
  let appdata_backups := appdata_tar_pool fs backup_path ++ appdata_rsync_pool fs backup_path
  let appdata := (pySortDesc artDateGe appdata_backups).take 5
  { vms := vms, appdata := appdata, plugins := plugins, flash := flash }

/-! ### `calculate_backup_size` (`app.py` lines 532–607) -/

/-- The repeated block "list the directory, keep `.tar.gz` names, sort
descending, `getsize` the first" that the `vm` / `appdata`(tar) /
`plugins` / `flash` branches all perform verbatim; any raise is caught by
the function's outer `except`, leaving the accumulator at 0. -/
def tarLatestSize (fs : FS) (dir : String) : Nat :=
  if fs.pathExists dir then
    match fs.listdir dir with
    | .error _ => 0
    | .ok files =>
      let gz := files.filter (fun f => strEnds ".tar.gz".data f.data)
      if gz.isEmpty then 0
      else
        match fs.getsize (pjoin dir ((pySortDesc nameGe gz).headD "")) with
        | .error _ => 0
        | .ok n => n
  else 0

/-- The `os.walk` size loop (lines 571–576 and 210–215): sum `getsize` over
every file under `root`, skipping files whose `getsize` raises. -/
def walkSum (fs : FS) (root : String) : Nat :=
  (fs.walk root).foldl (fun acc rf =>
    rf.2.foldl (fun a f =>
      match fs.getsize (pjoin rf.1 f) with
      | .error _ => a
      | .ok n => a + n) acc) 0

def calculate_backup_size (fs : FS) (cfg : Config) (backup_type : BackupType)
    (naming_scheme : String) : Nat :=
  let backup_base := cfg.backup_destination
  let mode_suffix := if cfg.incremental_enabled then "_rsync" else "_tar"
  match backup_type with
  | .vm => tarLatestSize fs (pjoin backup_base "VMs")
  | .plugins => tarLatestSize fs (pjoin backup_base "plugins")
  | .flash => tarLatestSize fs (pjoin backup_base "flash")
  | .appdata =>
    let backup_dir_new := pjoin backup_base ("backup_" ++ naming_scheme ++ mode_suffix)
    let backup_dir_old := pjoin backup_base ("backup_" ++ naming_scheme)
    let backup_dir := if fs.pathExists backup_dir_new then backup_dir_new else backup_dir_old
    if cfg.incremental_enabled then
      let snapshots_dir := pjoin backup_dir "snapshots"
      if fs.pathExists snapshots_dir then
        match fs.listdir snapshots_dir with
        | .error _ => 0
        | .ok entries =>
          let snapshots := entries.filter (fun d => fs.isdir (pjoin snapshots_dir d))
          if snapshots.isEmpty then 0
          else
            walkSum fs (pjoin snapshots_dir ((pySortDesc nameGe snapshots).headD ""))
      else 0
    else tarLatestSize fs backup_dir

/-! ### Stats (`update_stats`, `app.py` lines 176–220)

`load_stats`/`save_stats` persistence is modelled as the `Stats` value
passed in and returned; `datetime.now().isoformat()` is the `nowIso`
argument; `format_size` (display only) is dropped, sizes stay raw bytes. -/

structure HistoryEntry where
  btype : BackupType
  timestamp : String
  size : Nat
  success : Bool
deriving DecidableEq, Repr

structure Stats where
  lastBackup : BackupType → Option String
  lastSize : BackupType → Option Nat
  total_backup_size : Nat
  backup_history : List HistoryEntry

def update_stats (fs : FS) (cfg : Config) (stats : Stats) (nowIso : String)
    (bt : BackupType) (size_bytes : Nat) (success : Bool) : Stats :=
  let s1 : Stats :=
    { stats with
      lastBackup := fun b => if b = bt then some nowIso else stats.lastBackup b
      lastSize := fun b => if b = bt then some size_bytes else stats.lastSize b }
  let hist := s1.backup_history ++
    [{ btype := bt, timestamp := nowIso, size := size_bytes, success := success }]
  let hist50 := hist.drop (hist.length - 50)
  { s1 with backup_history := hist50,
            total_backup_size := walkSum fs cfg.backup_destination }

/-! ### Process Supervisor: exit path (`app.py` lines 713–753)

After `process.wait()` the supervisor clears `running_processes[backup_type]`
and then branches on the exit code.  `running` is the `running_processes`
dict (the stored handle, identified by its pid); `elapsed_str` and `nowIso`
are the wall-clock strings computed at lines 719–720 and 179. -/

structure SuperState where
  reg : Registry
  running : BackupType → Option Int
  stats : Stats

def finish_backup (fs : FS) (cfg : Config) (st : SuperState) (bt : BackupType)
    (naming : String) (rc : Int) (elapsed_str : String) (nowIso : String) :
    SuperState × Bool :=
  let running1 := fun b => if b = bt then none else st.running b
  if rc = 0 then
    let reg1 := update_progress st.reg bt (some 100) (some "Complete") (some "") none true
      (some ("Completed in " ++ elapsed_str))
    let backup_size := calculate_backup_size fs cfg bt naming
    let stats1 := update_stats fs cfg st.stats nowIso bt backup_size true
    ({ reg := reg1, running := running1, stats := stats1 }, true)
  else
    let reg1 := update_progress st.reg bt none none none
      (some ("Failed (code " ++ toString rc ++ ")")) true
      (some ("Failed with code " ++ toString rc))
    let stats1 := update_stats fs cfg st.stats nowIso bt 0 false
    ({ reg := reg1, running := running1, stats := stats1 }, false)

/-! ### Stats/Scheduler Estimator (`get_next_scheduled_run`, `app.py` lines 222–250)

`schedule.json` is modelled as the `Schedule` value (the `.get` defaults are
applied by `load_schedule` before this function runs; `days` defaults to
`["sun"]` and `time` to `"03:00"` there).  Instants are seconds counted from
an arbitrary Monday 00:00, so `datetime.weekday()` is `/ 86400 % 7` with
Monday = 0 (Python's numbering) and
`check_date.replace(hour=h, minute=m, second=0, microsecond=0)` for
`check_date = now + i days` is `(now / 86400 + i) * 86400 + h*3600 + m*60`.
The function returns the instant itself (the code formats it with
`strftime("%Y-%m-%d %H:%M")` for display; `next_run` has zero seconds, so
nothing is lost).  `Except.error ()` is an uncaught `ValueError`:
`int()` on an unparsable time piece, or `replace` on an out-of-range
hour/minute (which the code only reaches on the first matching weekday). -/

structure Schedule where
  enabled : Bool
  time : String
  days : List String
deriving Repr

/-- The `day_map` dict (lines 234–239) with its `.get(…, 6)` default. -/
def day_map (d : String) : Nat :=
  if d = "sunday" then 6 else if d = "monday" then 0 else if d = "tuesday" then 1
  else if d = "wednesday" then 2 else if d = "thursday" then 3 else if d = "friday" then 4
  else if d = "saturday" then 5
  else if d = "sun" then 6 else if d = "mon" then 0 else if d = "tue" then 1
  else if d = "wed" then 2 else if d = "thu" then 3 else if d = "fri" then 4
  else if d = "sat" then 5 else 6

/-- The `for i in range(8)` loop with early `return`: run `body` on
`i, i+1, …` while fuel lasts; `ok (some t)` is the `return`, `ok none`
falls through to the next iteration, `error` is a raised `ValueError`. -/
def scanLoop (body : Nat → Except Unit (Option Nat)) : Nat → Nat → Except Unit (Option Nat)
  | _, 0 => .ok none
  | i, fuel + 1 =>
    match body i with
    | .error e => .error e
    | .ok (some t) => .ok (some t)
    | .ok none => scanLoop body (i + 1) fuel

/-- One loop iteration (lines 244–248). -/
def nextRunBody (scheduled_days : List Nat) (h m now : Nat) (i : Nat) :
    Except Unit (Option Nat) :=
  if (now / 86400 + i) % 7 ∈ scheduled_days then
    let next_run := (now / 86400 + i) * 86400 + h * 3600 + m * 60
    if next_run > now then .ok (some next_run) else .ok none
  else .ok none

def get_next_scheduled_run (schedule : Schedule) (now : Nat) : Except Unit (Option Nat) :=
  if !schedule.enabled then .ok none
  else
    let time_parts := splitChar ':' schedule.time.data
    match pyInt ⟨time_parts.getD 0 []⟩ with
    | none => .error ()
    | some hI =>
      let mE : Except Unit Int :=
        if time_parts.length > 1 then
          match pyInt ⟨time_parts.getD 1 []⟩ with
          | none => .error ()
          | some m => .ok m
        else .ok 0
      match mE with
      | .error _ => .error ()
      | .ok mI =>
        let scheduled_days := schedule.days.map (fun d => day_map (pyLower d))
        if hI < 0 || 24 ≤ hI || mI < 0 || 60 ≤ mI then
          -- `.replace` on the first matching weekday raises; with no matching
          -- weekday within range(8) the bad time is never used.
          scanLoop (fun i =>
            if (now / 86400 + i) % 7 ∈ scheduled_days then .error () else .ok none) 0 8
        else
          scanLoop (nextRunBody scheduled_days hI.toNat mI.toNat now) 0 8

/-! ### Per-type HTTP endpoints (`app.py` lines 771–864)

`backup_type not in progress_state` is the membership test against the four
fixed keys of the state dict. -/

/-- The four keys of `progress_state` / `running_processes` / `progress_queues`. -/
def parseBackupType (s : String) : Option BackupType :=
  if s = "vm" then some .vm
  else if s = "appdata" then some .appdata
  else if s = "plugins" then some .plugins
  else if s = "flash" then some .flash
  else none

/-- A Flask JSON response as the claims observe it: HTTP status plus the
`success` / `error` / `message` keys the handlers put in the payload. -/
structure ApiResponse where
  status : Nat
  success : Option Bool
  error : Option String
  message : Option String
deriving DecidableEq, Repr

/-- What `api_backup_progress` (lines 771–816) does synchronously for the
claims in scope: reject an invalid type with 400, else register a fresh
subscriber queue and send the current state snapshot as the first message. -/
inductive ProgressResult where
  | invalid (resp : ApiResponse)
  | stream (firstMessage : JobState)
deriving DecidableEq, Repr

def api_backup_progress (reg : Registry) (backup_type : String) :
    ProgressResult × Registry :=
  match parseBackupType backup_type with
  | none =>
    (.invalid { status := 400, success := none, error := some "Invalid backup type",
                message := none }, reg)
  | some bt =>
    (.stream (reg.states bt),
     { reg with queues := fun b => if b = bt then reg.queues bt ++ [[]] else reg.queues b })

/-- `api_backup_status` (lines 818–825): 400 on an invalid type, else a copy
of the state under the lock; never mutates. -/
def api_backup_status (reg : Registry) (backup_type : String) :
    (ApiResponse ⊕ JobState) :=
  match parseBackupType backup_type with
  | none => .inl { status := 400, success := none, error := some "Invalid backup type",
                   message := none }
  | some bt => .inr (reg.states bt)

/-- The environment `api_backup_cancel` probes when no in-memory handle is
stored: the PID file and the two signal deliveries. -/
structure CancelEnv where
  pidFileExists : Bool
  pidFileRead : Except Unit String
  killPid : Except Unit Unit
  signalProc : Except String Unit
deriving Repr

/-- `api_backup_cancel` (lines 827–864).  Resolution: invalid type → 400;
inactive state → `{"success": False, "error": "No backup running"}`; an
in-memory handle → `send_signal(SIGTERM)` then the "Cancelling..." push, or
`{"success": False, "error": str(e)}` when the signal raises; otherwise the
PID-file fallback, any failure of which (missing file, unreadable file,
unparsable integer, `os.kill` raising) falls through to
`{"success": False, "error": "Could not find backup process"}`. -/
def api_backup_cancel (env : CancelEnv) (reg : Registry)
    (running : BackupType → Option Int) (backup_type : String) :
    ApiResponse × Registry :=
  match parseBackupType backup_type with
  | none =>
    ({ status := 400, success := some false, error := some "Invalid backup type",
       message := none }, reg)
  | some bt =>
    if !(reg.states bt).active then
      ({ status := 200, success := some false, error := some "No backup running",
         message := none }, reg)
    else
      match running bt with
      | none =>
        let attempt : Option (ApiResponse × Registry) :=
          if env.pidFileExists then
            match env.pidFileRead with
            | .error _ => none
            | .ok content =>
              match pyInt ⟨pyStrip content.data⟩ with
              | none => none
              | some _pid =>
                match env.killPid with
                | .error _ => none
                | .ok _ =>
                  some ({ status := 200, success := some true, error := none,
                          message := some "Cancel signal sent" },
                        update_progress reg bt none (some "Cancelling...") none none false
                          (some "Cancel requested - cleaning up..."))
          else none
        match attempt with
        | some r => r
        | none =>
          ({ status := 200, success := some false,
             error := some "Could not find backup process", message := none }, reg)
      | some _ =>
        match env.signalProc with
        | .ok _ =>
          ({ status := 200, success := some true, error := none,
             message := some "Cancel signal sent" },
           update_progress reg bt none (some "Cancelling...") none none false
             (some "Cancel requested - cleaning up..."))
        | .error e =>
          ({ status := 200, success := some false, error := some e, message := none }, reg)

/-- `os.path.getsize` with the enclosing `except` that leaves the size
accumulator at 0. -/
def getsizeD (fs : FS) (p : String) : Nat :=
  match fs.getsize p with
  | .error _ => 0
  | .ok n => n

/-! ### Concrete fixtures used by the claim witnesses and counterexamples -/

/-- An environment in which every filesystem call fails. -/
def fsEmpty : FS :=
  { pathExists := fun _ => false
    listdir := fun _ => .error ()
    stat := fun _ => .error ()
    isdir := fun _ => false
    readFile := fun _ => .error ()
    duSize := fun _ => .error ()
    walk := fun _ => []
    getsize := fun _ => .error () }

def cfgPlain : Config := { backup_destination := "/backup", incremental_enabled := false }

/-- A registry whose `vm` entry has terminated (`complete = True`) with no
error and no subscribers. -/
def c1Reg : Registry :=
  { states := fun b =>
      if b = .vm then
        { active := false, percent := 37, phase := "Complete", eta := "",
          error := none, complete := true, pid := none }
      else resetState
    queues := fun _ => [] }

/-- A registry whose `vm` entry carries a stored error. -/
def c1RegErr : Registry :=
  { states := fun b =>
      if b = .vm then
        { active := false, percent := 12, phase := "Copying", eta := "",
          error := some "boom", complete := false, pid := none }
      else resetState
    queues := fun _ => [] }

/-- A registry with one live (empty) subscriber queue on `vm` and a `vm`
state that differs from the reset state. -/
def c2Reg : Registry :=
  { states := fun b =>
      if b = .vm then
        { active := true, percent := 50, phase := "Copying", eta := "2m",
          error := none, complete := false, pid := none }
      else resetState
    queues := fun b => if b = .vm then [[]] else [] }

def c3Stats : Stats :=
  { lastBackup := fun _ => none, lastSize := fun _ => none,
    total_backup_size := 0, backup_history := [] }

def c3St : SuperState :=
  { reg := { states := fun _ => resetState, queues := fun _ => [[]] }
    running := fun _ => some 77
    stats := c3Stats }

def c4Env : CancelEnv :=
  { pidFileExists := false, pidFileRead := .error (), killPid := .error (),
    signalProc := .ok () }

def c4RegInactive : Registry :=
  { states := fun _ =>
      { active := false, percent := 0, phase := "", eta := "", error := none,
        complete := false, pid := none }
    queues := fun _ => [] }

def c4RegActive : Registry :=
  { states := fun _ => resetState, queues := fun _ => [] }

def c5Reg : Registry := { states := fun _ => resetState, queues := fun _ => [[]] }

/-- `/backup/VMs` holds `a.tar` (mtime 60 s, newer) and `b.tar` (mtime 0,
older): filename order and modification-time order disagree. -/
def c6Fs : FS :=
  { fsEmpty with
    pathExists := fun p => p = "/backup/VMs"
    listdir := fun p => if p = "/backup/VMs" then .ok ["a.tar", "b.tar"] else .error ()
    stat := fun p =>
      if p = "/backup/VMs/a.tar" then .ok { st_size := 10, st_mtime := 60 }
      else if p = "/backup/VMs/b.tar" then .ok { st_size := 20, st_mtime := 0 }
      else .error () }

/-- One rsync snapshot whose `.backup_size` marker cannot be read and whose
`du` fallback also fails. -/
def c8Fs : FS :=
  { fsEmpty with
    pathExists := fun p => p = "/b/snapshots" || p = "/b/snapshots/snap1/.backup_size"
    listdir := fun p => if p = "/b/snapshots" then .ok ["snap1"] else .error ()
    isdir := fun p => p = "/b/snapshots/snap1"
    stat := fun p =>
      if p = "/b/snapshots/snap1" then .ok { st_size := 0, st_mtime := 300 }
      else .error () }

def c9Reg : Registry := { states := fun _ => resetState, queues := fun _ => [] }

def schedWed : Schedule := { enabled := true, time := "03:00", days := ["wednesday"] }

/-! ## Helper lemmas -/

theorem mem_pyInsert (ge : α → α → Bool) (x y : α) (l : List α) :
    y ∈ pyInsert ge x l ↔ y = x ∨ y ∈ l := by
  induction l with
  | nil => simp [pyInsert]
  | cons z zs ih =>
    simp only [pyInsert]
    split
    · simp [List.mem_cons]
    · simp only [List.mem_cons, ih]
      tauto

theorem mem_pySortDesc (ge : α → α → Bool) (l : List α) (y : α) :
    y ∈ pySortDesc ge l ↔ y ∈ l := by
  induction l with
  | nil => simp [pySortDesc]
  | cons z zs ih =>
    simp only [pySortDesc, List.foldr_cons] at *
    rw [mem_pyInsert, ih, List.mem_cons]

theorem length_pyInsert (ge : α → α → Bool) (x : α) (l : List α) :
    (pyInsert ge x l).length = l.length + 1 := by
  induction l with
  | nil => simp [pyInsert]
  | cons z zs ih =>
    simp only [pyInsert]
    split <;> simp [ih]

theorem length_pySortDesc (ge : α → α → Bool) (l : List α) :
    (pySortDesc ge l).length = l.length := by
  induction l with
  | nil => simp [pySortDesc]
  | cons z zs ih =>
    simp only [pySortDesc, List.foldr_cons] at *
    rw [length_pyInsert, ih, List.length_cons]

theorem geSorted_pyInsert (ge : α → α → Bool)
    (htot : ∀ a b, ge a b = true ∨ ge b a = true)
    (htrans : ∀ a b c, ge a b = true → ge b c = true → ge a c = true)
    (x : α) (l : List α) (h : GeSorted ge l) : GeSorted ge (pyInsert ge x l) := by
  induction l with
  | nil => simp [pyInsert, GeSorted]
  | cons y ys ih =>
    rw [GeSorted, List.pairwise_cons] at h
    obtain ⟨hy, hys⟩ := h
    simp only [pyInsert]
    split
    · rename_i hxy
      rw [GeSorted, List.pairwise_cons]
      constructor
      · intro z hz
        rcases List.mem_cons.mp hz with rfl | hz
        · exact hxy
        · exact htrans x y z hxy (hy z hz)
      · rw [GeSorted] at *
        exact List.pairwise_cons.mpr ⟨hy, hys⟩
    · rename_i hxy
      have hyx : ge y x = true := by
        rcases htot x y with h' | h'
        · exact absurd h' hxy
        · exact h'
      rw [GeSorted, List.pairwise_cons]
      constructor
      · intro z hz
        rcases (mem_pyInsert ge x z ys).mp hz with rfl | hz
        · exact hyx
        · exact hy z hz
      · exact ih hys

theorem geSorted_pySortDesc (ge : α → α → Bool)
    (htot : ∀ a b, ge a b = true ∨ ge b a = true)
    (htrans : ∀ a b c, ge a b = true → ge b c = true → ge a c = true)
    (l : List α) : GeSorted ge (pySortDesc ge l) := by
  induction l with
  | nil => simp [pySortDesc, GeSorted]
  | cons z zs ih =>
    simp only [pySortDesc, List.foldr_cons] at *
    exact geSorted_pyInsert ge htot htrans z _ ih

theorem geSorted_take (ge : α → α → Bool) (n : Nat) (l : List α)
    (h : GeSorted ge l) : GeSorted ge (l.take n) :=
  List.Pairwise.sublist (List.take_sublist n l) h

theorem geSorted_head (ge : α → α → Bool) (x : α) (l : List α)
    (h : GeSorted ge (x :: l)) (y : α) (hy : y ∈ l) : ge x y = true :=
  (List.pairwise_cons.mp h).1 y hy

/-! ### Comparator facts used by the scanner's sorts -/

theorem lexLe_total (x y : List Char) : lexLe x y = true ∨ lexLe y x = true := by
  induction x generalizing y with
  | nil => left; rfl
  | cons a as ih =>
    cases y with
    | nil => right; rfl
    | cons b bs =>
      by_cases hab : a = b
      · subst hab
        simp only [lexLe, if_pos rfl]
        exact ih bs
      · have hba : b ≠ a := fun h => hab h.symm
        simp only [lexLe, if_neg hab, if_neg hba, charLtB]
        have h3 : a.toNat ≠ b.toNat := by
          intro h
          exact hab (Char.eq_of_val_eq (UInt32.toNat.inj h))
        rcases Nat.lt_or_ge a.toNat b.toNat with h' | h'
        · left; exact Nat.blt_eq.mpr h'
        · right
          exact Nat.blt_eq.mpr (Nat.lt_of_le_of_ne h' (fun h => h3 h.symm))

theorem lexLe_trans (x y z : List Char) (hxy : lexLe x y = true)
    (hyz : lexLe y z = true) : lexLe x z = true := by
  induction x generalizing y z with
  | nil => rfl
  | cons a as ih =>
    cases y with
    | nil => simp [lexLe] at hxy
    | cons b bs =>
      cases z with
      | nil => simp [lexLe] at hyz
      | cons c cs =>
        by_cases hab : a = b <;> by_cases hbc : b = c
        · subst hab; subst hbc
          simp only [lexLe, if_pos rfl] at *
          exact ih bs cs hxy hyz
        · subst hab
          simp only [lexLe, if_pos rfl, if_neg hbc] at *
          exact hyz
        · subst hbc
          simp only [lexLe, if_pos rfl, if_neg hab] at *
          exact hxy
        · simp only [lexLe, if_neg hab, if_neg hbc] at hxy hyz
          have h1 : a.toNat < b.toNat := Nat.blt_eq.mp hxy
          have h2 : b.toNat < c.toNat := Nat.blt_eq.mp hyz
          have h3 : a.toNat < c.toNat := Nat.lt_trans h1 h2
          have hac : a ≠ c := by
            intro h
            subst h
            exact Nat.lt_irrefl _ h3
          simp only [lexLe, if_neg hac, charLtB]
          exact Nat.blt_eq.mpr h3

theorem lexLe_refl (x : List Char) : lexLe x x = true := by
  induction x with
  | nil => rfl
  | cons a as ih => simp [lexLe, ih]

/-! ## Claim theorems -/

/-- C1, counterexample.  Two parts of the claim fail on the code.
(i) A field not supplied — `complete` included — does not retain its
previous value: on the `vm` state of `c1Reg`, which has `complete = True`,
an update supplying only a log line (so with `complete` left at its Python
default `False`) stores `complete = False`.
(ii) `active` is not recomputed from the *merged* state: on the `vm` state
of `c1RegErr`, which has a stored error, the same log-only update
(`error` argument `None`) leaves the merged `error = "boom"` in place yet
sets `active = True`, because line 73 evaluates `error is None` on the
argument. -/
theorem c1_counterexample :
    (c1Reg.states .vm).complete = true ∧
    ((update_progress c1Reg .vm none none none none false (some "tail line")).states
      .vm).complete = false ∧
    ((update_progress c1RegErr .vm none none none none false (some "tail line")).states
      .vm).error = some "boom" ∧
    ((update_progress c1RegErr .vm none none none none false (some "tail line")).states
      .vm).complete = false ∧
    ((update_progress c1RegErr .vm none none none none false (some "tail line")).states
      .vm).active = true := by
  exact ⟨rfl, rfl, rfl, rfl, rfl⟩

/-- C1, amended: `update_progress` merges exactly the supplied
`percent`/`phase`/`eta`/`error` fields (each retains its previous value when
its argument is `None`), always stores the call's `complete` flag (`False`
when not supplied), recomputes `active = true` iff the call's `complete`
flag is `false` and the call's `error` argument is `None` — evaluated on
the arguments, not the merged state, so a call that does not supply `error`
marks the class active even when a stored error remains — and touches no
other job class. -/
theorem c1_update_merges (reg : Registry) (bt : BackupType)
    (percent : Option Int) (phase eta error : Option String) (complete : Bool)
    (log_line : Option String) :
    (percent = none →
      ((update_progress reg bt percent phase eta error complete log_line).states bt).percent =
        (reg.states bt).percent) ∧
    (∀ v, percent = some v →
      ((update_progress reg bt percent phase eta error complete log_line).states bt).percent = v) ∧
    (phase = none →
      ((update_progress reg bt percent phase eta error complete log_line).states bt).phase =
        (reg.states bt).phase) ∧
    (∀ v, phase = some v →
      ((update_progress reg bt percent phase eta error complete log_line).states bt).phase = v) ∧
    (eta = none →
      ((update_progress reg bt percent phase eta error complete log_line).states bt).eta =
        (reg.states bt).eta) ∧
    (∀ v, eta = some v →
      ((update_progress reg bt percent phase eta error complete log_line).states bt).eta = v) ∧
    (error = none →
      ((update_progress reg bt percent phase eta error complete log_line).states bt).error =
        (reg.states bt).error) ∧
    (∀ v, error = some v →
      ((update_progress reg bt percent phase eta error complete log_line).states bt).error =
        some v) ∧
    ((update_progress reg bt percent phase eta error complete log_line).states bt).complete =
      complete ∧
    (((update_progress reg bt percent phase eta error complete log_line).states bt).active =
        true ↔
      (complete = false ∧ error = none)) ∧
    (∀ b, b ≠ bt →
      (update_progress reg bt percent phase eta error complete log_line).states b =
        reg.states b) := by
  refine ⟨?_, ?_, ?_, ?_, ?_, ?_, ?_, ?_, ?_, ?_, ?_⟩
  · intro h; subst h; simp [update_progress, applyUpdate]
  · intro v h; subst h; simp [update_progress, applyUpdate]
  · intro h; subst h; simp [update_progress, applyUpdate]
  · intro v h; subst h; simp [update_progress, applyUpdate]
  · intro h; subst h; simp [update_progress, applyUpdate]
  · intro v h; subst h; simp [update_progress, applyUpdate]
  · intro h; subst h; simp [update_progress, applyUpdate]
  · intro v h; subst h; simp [update_progress, applyUpdate]
  · simp [update_progress, applyUpdate]
  · cases complete <;> cases error <;> simp [update_progress, applyUpdate]
  · intro b hb; simp [update_progress, hb]

/-- C1, witness: a concrete update supplying only `percent` stores the new
percent and keeps the previous phase. -/
theorem c1_witness :
    ((update_progress c1Reg .vm (some 55) none none none false none).states .vm).percent = 55 ∧
    ((update_progress c1Reg .vm (some 55) none none none false none).states .vm).phase =
      (c1Reg.states .vm).phase := by
  have h := c1_update_merges c1Reg .vm (some 55) none none none false none
  exact ⟨h.2.1 55 rfl, h.2.2.1 rfl⟩

/-- C2, counterexample.  The claim says every Registry mutation — `reset`
included — enqueues exactly one ProgressEvent to every registered subscriber
queue.  `reset_progress` on `c2Reg` mutates the `vm` state but its one
registered `vm` queue still holds zero events. -/
theorem c2_counterexample :
    (reset_progress c2Reg .vm).states .vm ≠ c2Reg.states .vm ∧
    ((reset_progress c2Reg .vm).queues .vm).map List.length = [0] := by
  constructor
  · decide
  · rfl

/-- C2, amended: every `update_progress` call enqueues exactly one event
(the one built from the merged state) to every queue currently registered
for that job class, growing each by exactly one and touching no other
class's queues, while `reset_progress` enqueues nothing. -/
theorem c2_event_fanout (reg : Registry) (bt : BackupType)
    (percent : Option Int) (phase eta error : Option String) (complete : Bool)
    (log_line : Option String) :
    ((update_progress reg bt percent phase eta error complete log_line).queues bt =
      (reg.queues bt).map (fun q =>
        q ++ [mkEvent (applyUpdate (reg.states bt) percent phase eta error complete)
          log_line])) ∧
    (((update_progress reg bt percent phase eta error complete log_line).queues bt).map
        List.length =
      (reg.queues bt).map (fun q => q.length + 1)) ∧
    (∀ b, b ≠ bt →
      (update_progress reg bt percent phase eta error complete log_line).queues b =
        reg.queues b) ∧
    (reset_progress reg bt).queues = reg.queues := by
  refine ⟨?_, ?_, ?_, ?_⟩
  · simp [update_progress]
  · simp [update_progress, Function.comp]
  · intro b hb; simp [update_progress, hb]
  · rfl

/-- C2, witness: on `c2Reg` an update grows the registered `vm` queue by
one and leaves the (empty) `appdata` queue list untouched. -/
theorem c2_witness :
    ((update_progress c2Reg .vm none none none none false (some "x")).queues .vm).map
        List.length =
      (c2Reg.queues .vm).map (fun q => q.length + 1) ∧
    (update_progress c2Reg .vm none none none none false (some "x")).queues .appdata =
      c2Reg.queues .appdata := by
  have h := c2_event_fanout c2Reg .vm none none none none false (some "x")
  exact ⟨h.2.1, h.2.2.1 .appdata (by decide)⟩

/-- C10: an update supplying only a log line leaves the stored `percent`,
`phase`, `eta` and `error` unchanged, and the single event it enqueues to
every subscriber of that class carries exactly those unchanged values
together with `log = l`. -/
theorem c10_log_only (reg : Registry) (bt : BackupType) (l : String) :
    ((update_progress reg bt none none none none false (some l)).states bt).percent =
      (reg.states bt).percent ∧
    ((update_progress reg bt none none none none false (some l)).states bt).phase =
      (reg.states bt).phase ∧
    ((update_progress reg bt none none none none false (some l)).states bt).eta =
      (reg.states bt).eta ∧
    ((update_progress reg bt none none none none false (some l)).states bt).error =
      (reg.states bt).error ∧
    (mkEvent (applyUpdate (reg.states bt) none none none none false) (some l)).percent =
      (reg.states bt).percent ∧
    (mkEvent (applyUpdate (reg.states bt) none none none none false) (some l)).phase =
      (reg.states bt).phase ∧
    (mkEvent (applyUpdate (reg.states bt) none none none none false) (some l)).eta =
      (reg.states bt).eta ∧
    (mkEvent (applyUpdate (reg.states bt) none none none none false) (some l)).error =
      (reg.states bt).error ∧
    (mkEvent (applyUpdate (reg.states bt) none none none none false) (some l)).log = some l ∧
    (update_progress reg bt none none none none false (some l)).queues bt =
      (reg.queues bt).map (fun q =>
        q ++ [mkEvent (applyUpdate (reg.states bt) none none none none false) (some l)]) := by
  refine ⟨?_, ?_, ?_, ?_, ?_, ?_, ?_, ?_, ?_, ?_⟩ <;>
    simp [update_progress, applyUpdate, mkEvent]

/-- C5: for a stripped stdout line starting with `PROGRESS|` whose
`split("|", 3)` yields at least three parts, the supervisor — when the
percent field parses as an integer — merges `percent`, `phase` and `eta`
(the empty string when the fourth field is absent) and enqueues one event
with `logLine = phase` to every subscriber; when the percent field does not
parse, the marker is dropped silently and the whole registry (percent
included) is left unchanged. -/
theorem c5_progress_marker (reg : Registry) (bt : BackupType) (rawLine : String)
    (hstart : strStarts "PROGRESS|".data (pyStrip rawLine.data) = true)
    (hlen : (splitCharMax '|' 3 (pyStrip rawLine.data)).length ≥ 3) :
    (∀ p, pyInt ⟨(splitCharMax '|' 3 (pyStrip rawLine.data)).getD 1 []⟩ = some p →
      ((process_line reg bt rawLine).states bt).percent = p ∧
      ((process_line reg bt rawLine).states bt).phase =
        (⟨(splitCharMax '|' 3 (pyStrip rawLine.data)).getD 2 []⟩ : String) ∧
      ((process_line reg bt rawLine).states bt).eta =
        (if (splitCharMax '|' 3 (pyStrip rawLine.data)).length > 3 then
          (⟨(splitCharMax '|' 3 (pyStrip rawLine.data)).getD 3 []⟩ : String) else "") ∧
      (process_line reg bt rawLine).queues bt =
        (reg.queues bt).map (fun q => q ++
          [mkEvent
            (applyUpdate (reg.states bt) (some p)
              (some ⟨(splitCharMax '|' 3 (pyStrip rawLine.data)).getD 2 []⟩)
              (some (if (splitCharMax '|' 3 (pyStrip rawLine.data)).length > 3 then
                (⟨(splitCharMax '|' 3 (pyStrip rawLine.data)).getD 3 []⟩ : String) else ""))
              none false)
            (some ⟨(splitCharMax '|' 3 (pyStrip rawLine.data)).getD 2 []⟩)]) ∧
      (mkEvent
          (applyUpdate (reg.states bt) (some p)
            (some ⟨(splitCharMax '|' 3 (pyStrip rawLine.data)).getD 2 []⟩)
            (some (if (splitCharMax '|' 3 (pyStrip rawLine.data)).length > 3 then
              (⟨(splitCharMax '|' 3 (pyStrip rawLine.data)).getD 3 []⟩ : String) else ""))
            none false)
          (some ⟨(splitCharMax '|' 3 (pyStrip rawLine.data)).getD 2 []⟩)).log =
        some (⟨(splitCharMax '|' 3 (pyStrip rawLine.data)).getD 2 []⟩ : String)) ∧
    (pyInt ⟨(splitCharMax '|' 3 (pyStrip rawLine.data)).getD 1 []⟩ = none →
      process_line reg bt rawLine = reg) := by
  have hne : ((⟨pyStrip rawLine.data⟩ : String).data.isEmpty) = false := by
    cases h : pyStrip rawLine.data with
    | nil => rw [h] at hstart; exact absurd hstart (by decide)
    | cons a t => simp [h]
  constructor
  · intro p hp
    simp only [List.getD, List.get?_eq_getElem?] at hp
    refine ⟨?_, ?_, ?_, ?_, ?_⟩ <;>
      simp [process_line, hne, hstart, hlen, hp, update_progress, applyUpdate, mkEvent]
  · intro hp
    simp only [List.getD, List.get?_eq_getElem?] at hp
    simp [process_line, hne, hstart, hlen, hp]

/-- C5, witness: the spec's two examples.  `PROGRESS|42|Compressing|5m`
sets percent 42, phase `Compressing`, eta `5m`; `PROGRESS|abc|x` leaves the
registry unchanged. -/
theorem c5_witness :
    ((process_line c5Reg .vm "PROGRESS|42|Compressing|5m").states .vm).percent = 42 ∧
    ((process_line c5Reg .vm "PROGRESS|42|Compressing|5m").states .vm).phase = "Compressing" ∧
    ((process_line c5Reg .vm "PROGRESS|42|Compressing|5m").states .vm).eta = "5m" ∧
    process_line c5Reg .vm "PROGRESS|abc|x" = c5Reg := by
  have h := c5_progress_marker c5Reg .vm "PROGRESS|42|Compressing|5m" (by decide) (by decide)
  have h2 := c5_progress_marker c5Reg .vm "PROGRESS|abc|x" (by decide) (by decide)
  have h42 := h.1 42 (by decide)
  exact ⟨h42.1, h42.2.1, h42.2.2.1, h2.2 (by decide)⟩

/-- C9: for a job-class string outside {vm, appdata, plugins, flash}, the
progress-stream, status and cancel endpoints each answer
"Invalid backup type" with HTTP 400, mutate nothing, and their responses do
not depend on the registry (no job state is read). -/
theorem c9_invalid_type (s : String) (hs : parseBackupType s = none)
    (env : CancelEnv) (reg reg' : Registry) (running running' : BackupType → Option Int) :
    api_backup_progress reg s =
      (.invalid { status := 400, success := none, error := some "Invalid backup type",
                  message := none }, reg) ∧
    api_backup_status reg s =
      .inl { status := 400, success := none, error := some "Invalid backup type",
             message := none } ∧
    api_backup_cancel env reg running s =
      ({ status := 400, success := some false, error := some "Invalid backup type",
         message := none }, reg) ∧
    (api_backup_progress reg s).1 = (api_backup_progress reg' s).1 ∧
    api_backup_status reg s = api_backup_status reg' s ∧
    (api_backup_cancel env reg running s).1 = (api_backup_cancel env reg' running' s).1 := by
  refine ⟨?_, ?_, ?_, ?_, ?_, ?_⟩ <;>
    simp [api_backup_progress, api_backup_status, api_backup_cancel, hs]

/-- C9, witness: the endpoints at the invalid type string `"database"`. -/
theorem c9_witness :
    api_backup_status c9Reg "database" =
      .inl { status := 400, success := none, error := some "Invalid backup type",
             message := none } ∧
    (api_backup_cancel c4Env c9Reg (fun _ => none) "database").2 = c9Reg := by
  have h := c9_invalid_type "database" (by decide) c4Env c9Reg c9Reg
    (fun _ => none) (fun _ => none)
  exact ⟨h.2.1, by rw [h.2.2.1]⟩

/-- C4: `cancel` on an inactive job class returns the failure outcome
`{"success": False, "error": "No backup running"}` without touching the
registry; and on an active class with neither an in-memory handle nor a
resolvable persisted PID (missing PID file, unreadable file, unparsable
contents, or a failing `os.kill`) it returns the distinct explicit failure
`{"success": False, "error": "Could not find backup process"}`, again
without touching the registry. -/
theorem c4_cancel_failure_modes (env : CancelEnv) (reg : Registry)
    (running : BackupType → Option Int) (s : String) (bt : BackupType)
    (hbt : parseBackupType s = some bt) :
    ((reg.states bt).active = false →
      api_backup_cancel env reg running s =
        ({ status := 200, success := some false, error := some "No backup running",
           message := none }, reg)) ∧
    ((reg.states bt).active = true → running bt = none →
      (env.pidFileExists = false ∨ env.pidFileRead = .error () ∨
        (∀ content, env.pidFileRead = .ok content → pyInt ⟨pyStrip content.data⟩ = none) ∨
        env.killPid = .error ()) →
      api_backup_cancel env reg running s =
        ({ status := 200, success := some false,
           error := some "Could not find backup process", message := none }, reg) ∧
      (api_backup_cancel env reg running s).1.error ≠ some "No backup running") := by
  constructor
  · intro hact
    simp [api_backup_cancel, hbt, hact]
  · intro hact hrun hfail
    have heq : api_backup_cancel env reg running s =
        ({ status := 200, success := some false,
           error := some "Could not find backup process", message := none }, reg) := by
      rcases hfail with h | h | h | h
      · simp [api_backup_cancel, hbt, hact, hrun, h]
      · simp [api_backup_cancel, hbt, hact, hrun, h]
      · cases hr : env.pidFileRead with
        | error e => simp [api_backup_cancel, hbt, hact, hrun, hr]
        | ok c =>
          have hc := h c hr
          simp [api_backup_cancel, hbt, hact, hrun, hr, hc]
      · cases hr : env.pidFileRead with
        | error e => simp [api_backup_cancel, hbt, hact, hrun, hr]
        | ok c =>
          cases hpi : pyInt ⟨pyStrip c.data⟩ with
          | none => simp [api_backup_cancel, hbt, hact, hrun, hr, hpi]
          | some pid => simp [api_backup_cancel, hbt, hact, hrun, hr, hpi, h]
    refine ⟨heq, ?_⟩
    rw [heq]
    simp

/-- C4, witness: on an inactive registry the cancel endpoint reports
"No backup running"; on an active registry with no handle and no PID file
it reports "Could not find backup process". -/
theorem c4_witness :
    api_backup_cancel c4Env c4RegInactive (fun _ => none) "vm" =
      ({ status := 200, success := some false, error := some "No backup running",
         message := none }, c4RegInactive) ∧
    api_backup_cancel c4Env c4RegActive (fun _ => none) "vm" =
      ({ status := 200, success := some false,
         error := some "Could not find backup process", message := none }, c4RegActive) := by
  constructor
  · exact (c4_cancel_failure_modes c4Env c4RegInactive (fun _ => none) "vm" .vm
      (by decide)).1 (by decide)
  · exact ((c4_cancel_failure_modes c4Env c4RegActive (fun _ => none) "vm" .vm
      (by decide)).2 (by decide) rfl (Or.inl rfl)).1

theorem scanLoop_eq_none (body : Nat → Except Unit (Option Nat)) (fuel : Nat) :
    ∀ i, (∀ k, k < fuel → body (i + k) = .ok none) → scanLoop body i fuel = .ok none := by
  induction fuel with
  | zero => intro i _; rfl
  | succ n ih =>
    intro i h
    have h0 := h 0 (Nat.succ_pos n)
    simp only [Nat.add_zero] at h0
    simp only [scanLoop, h0]
    exact ih (i + 1) (fun k hk => by
      have hk1 := h (k + 1) (Nat.succ_lt_succ hk)
      rwa [Nat.add_comm k 1, ← Nat.add_assoc] at hk1)

theorem scanLoop_first_hit (body : Nat → Except Unit (Option Nat)) (fuel : Nat) :
    ∀ i k t, k < fuel → body (i + k) = .ok (some t) →
      (∀ j, j < k → body (i + j) = .ok none) →
      scanLoop body i fuel = .ok (some t) := by
  induction fuel with
  | zero => intro i k t hk _ _; omega
  | succ n ih =>
    intro i k t hk hhit hbefore
    cases k with
    | zero =>
      simp only [Nat.add_zero] at hhit
      simp [scanLoop, hhit]
    | succ k' =>
      have h0 := hbefore 0 (Nat.succ_pos k')
      simp only [Nat.add_zero] at h0
      simp only [scanLoop, h0]
      refine ih (i + 1) k' t (by omega) ?_ ?_
      · have : i + (k' + 1) = i + 1 + k' := by omega
        rwa [this] at hhit
      · intro j hj
        have := hbefore (j + 1) (Nat.succ_lt_succ hj)
        rwa [Nat.add_comm j 1, ← Nat.add_assoc] at this

theorem nextRunBody_hit (days : List Nat) (h m now i : Nat)
    (hmem : (now / 86400 + i) % 7 ∈ days)
    (hgt : (now / 86400 + i) * 86400 + h * 3600 + m * 60 > now) :
    nextRunBody days h m now i =
      .ok (some ((now / 86400 + i) * 86400 + h * 3600 + m * 60)) := by
  simp [nextRunBody, hmem, hgt]

theorem nextRunBody_miss (days : List Nat) (h m now i : Nat)
    (hmiss : ¬ ((now / 86400 + i) % 7 ∈ days ∧
      (now / 86400 + i) * 86400 + h * 3600 + m * 60 > now)) :
    nextRunBody days h m now i = .ok none := by
  by_cases hmem : (now / 86400 + i) % 7 ∈ days
  · have hle : ¬ ((now / 86400 + i) * 86400 + h * 3600 + m * 60 > now) :=
      fun hgt => hmiss ⟨hmem, hgt⟩
    simp [nextRunBody, hmem, hle]
  · simp [nextRunBody, hmem]

/-- C7: a disabled rule yields `none`; an enabled rule with a parsable,
in-range `HH:MM` time scans the 8 dates `today … today+7` in order and
returns the run instant (the rule's time of day on that date) of the first
date whose weekday lies in the rule's mapped weekday set and whose instant
is strictly after `now`, and `none` when no scanned date qualifies. -/
theorem c7_next_run (sch : Schedule) (now : Nat) (hI mI : Int)
    (hen : sch.enabled = true)
    (hh : pyInt ⟨(splitChar ':' sch.time.data).getD 0 []⟩ = some hI)
    (hlen : (splitChar ':' sch.time.data).length > 1)
    (hm : pyInt ⟨(splitChar ':' sch.time.data).getD 1 []⟩ = some mI)
    (hhr : 0 ≤ hI ∧ hI < 24) (hmr : 0 ≤ mI ∧ mI < 60) :
    (∀ sch' : Schedule, sch'.enabled = false →
      ∀ n, get_next_scheduled_run sch' n = .ok none) ∧
    ((∀ i, i < 8 →
        ¬ ((now / 86400 + i) % 7 ∈ sch.days.map (fun d => day_map (pyLower d)) ∧
          (now / 86400 + i) * 86400 + hI.toNat * 3600 + mI.toNat * 60 > now)) →
      get_next_scheduled_run sch now = .ok none) ∧
    (∀ i, i < 8 →
      (now / 86400 + i) % 7 ∈ sch.days.map (fun d => day_map (pyLower d)) →
      (now / 86400 + i) * 86400 + hI.toNat * 3600 + mI.toNat * 60 > now →
      (∀ j, j < i →
        ¬ ((now / 86400 + j) % 7 ∈ sch.days.map (fun d => day_map (pyLower d)) ∧
          (now / 86400 + j) * 86400 + hI.toNat * 3600 + mI.toNat * 60 > now)) →
      get_next_scheduled_run sch now =
        .ok (some ((now / 86400 + i) * 86400 + hI.toNat * 3600 + mI.toNat * 60))) := by
  have hrange : (decide (hI < 0) || decide (24 ≤ hI) || decide (mI < 0) ||
      decide (60 ≤ mI)) = false := by
    simp only [Bool.or_eq_false_iff, decide_eq_false_iff_not]
    omega
  have hbase : get_next_scheduled_run sch now =
      scanLoop (nextRunBody (sch.days.map (fun d => day_map (pyLower d)))
        hI.toNat mI.toNat now) 0 8 := by
    simp only [get_next_scheduled_run, hen, Bool.not_true, Bool.false_eq_true, if_false]
    rw [hh]
    simp only [hlen, if_pos]
    rw [hm]
    simp only [hrange, Bool.false_eq_true, if_false]
  refine ⟨?_, ?_, ?_⟩
  · intro sch' h n
    simp [get_next_scheduled_run, h]
  · intro hmiss
    rw [hbase]
    refine scanLoop_eq_none _ 8 0 (fun k hk => ?_)
    simp only [Nat.zero_add]
    exact nextRunBody_miss _ _ _ _ _ (hmiss k hk)
  · intro i hi hmem hgt hbefore
    rw [hbase]
    refine scanLoop_first_hit _ 8 0 i _ hi ?_ ?_
    · simp only [Nat.zero_add]
      exact nextRunBody_hit _ _ _ _ _ hmem hgt
    · intro j hj
      simp only [Nat.zero_add]
      exact nextRunBody_miss _ _ _ _ _ (hbefore j hj)

/-- C7, witness: the spec's worked example, for the rule
{enabled, time="03:00", days={wednesday}} (Wednesday is weekday 2): at
Wednesday 02:00 the next run is the same day 03:00, at Wednesday 04:00 it
is the next Wednesday 03:00. -/
theorem c7_witness :
    get_next_scheduled_run schedWed (2 * 86400 + 2 * 3600) =
      .ok (some (2 * 86400 + 3 * 3600)) ∧
    get_next_scheduled_run schedWed (2 * 86400 + 4 * 3600) =
      .ok (some (9 * 86400 + 3 * 3600)) := by
  constructor
  · have h := (c7_next_run schedWed (2 * 86400 + 2 * 3600) 3 0 rfl (by decide) (by decide)
      (by decide) (by decide) (by decide)).2.2 0 (by decide) (by decide) (by decide)
      (by intro j hj; omega)
    simpa using h
  · have h := (c7_next_run schedWed (2 * 86400 + 4 * 3600) 3 0 rfl (by decide) (by decide)
      (by decide) (by decide) (by decide)).2.2 7 (by decide) (by decide) (by decide)
      (by decide)
    simpa using h

theorem getLast?_drop_concat (l : List α) (x : α) (k : Nat) (hk : k ≤ l.length) :
    ((l ++ [x]).drop k).getLast? = some x := by
  rw [List.drop_append_eq_append_drop]
  have h0 : k - l.length = 0 := by omega
  rw [h0, List.drop_zero, List.getLast?_concat]

theorem update_stats_getLast (fs : FS) (cfg : Config) (stats : Stats) (nowIso : String)
    (bt : BackupType) (size_bytes : Nat) (success : Bool) :
    (update_stats fs cfg stats nowIso bt size_bytes success).backup_history.getLast? =
      some { btype := bt, timestamp := nowIso, size := size_bytes, success := success } := by
  unfold update_stats
  apply getLast?_drop_concat
  simp

theorem pySortDesc_ne_nil (ge : α → α → Bool) (l : List α) (h : l ≠ []) :
    pySortDesc ge l ≠ [] := by
  intro hc
  have hlen := length_pySortDesc ge l
  rw [hc] at hlen
  exact h (List.length_eq_zero.mp hlen.symm)

theorem headD_mem (l : List α) (d : α) (h : l ≠ []) : l.headD d ∈ l := by
  cases l with
  | nil => exact absurd rfl h
  | cons a t => simp

theorem pySortDesc_headD_mem (ge : α → α → Bool) (l : List α) (d : α) (h : l ≠ []) :
    (pySortDesc ge l).headD d ∈ l :=
  (mem_pySortDesc ge l _).mp (headD_mem _ _ (pySortDesc_ne_nil ge l h))

theorem pySortDesc_headD_max (ge : α → α → Bool)
    (htot : ∀ a b, ge a b = true ∨ ge b a = true)
    (htrans : ∀ a b c, ge a b = true → ge b c = true → ge a c = true)
    (hrefl : ∀ a, ge a a = true)
    (l : List α) (d : α) (y : α) (hy : y ∈ l) :
    ge ((pySortDesc ge l).headD d) y = true := by
  have hs := geSorted_pySortDesc ge htot htrans l
  have hy' : y ∈ pySortDesc ge l := (mem_pySortDesc ge l y).mpr hy
  cases hsl : pySortDesc ge l with
  | nil => rw [hsl] at hy'; simp at hy'
  | cons a t =>
    rw [hsl] at hy' hs
    simp only [List.headD_cons]
    rcases List.mem_cons.mp hy' with rfl | hmem
    · exact hrefl y
    · exact geSorted_head ge a t hs y hmem

theorem nameGe_total (a b : String) : nameGe a b = true ∨ nameGe b a = true :=
  (lexLe_total b.data a.data).imp id id

theorem nameGe_trans (a b c : String) (h1 : nameGe a b = true) (h2 : nameGe b c = true) :
    nameGe a c = true :=
  lexLe_trans c.data b.data a.data h2 h1

theorem nameGe_refl (a : String) : nameGe a a = true := lexLe_refl a.data

/-- C3: after `process.wait()` the supervisor clears the stored handle in
both branches; on exit code 0 it pushes percent 100, phase "Complete",
`complete = True` (so the state goes inactive), returns success, and appends
a history entry with `success = True` whose size is
`calculate_backup_size`'s result; on every non-zero exit code it pushes
`error = "Failed (code N)"` with `complete = True`, returns failure, and
appends a history entry with `success = False` and size 0.  Moreover the
tar-mode size computation indeed takes the single latest (maximal by the
filename order used for sorting) `.tar.gz` artifact of the probed directory
and reports its on-disk size. -/
theorem c3_exit_path (fs : FS) (cfg : Config) (st : SuperState) (bt : BackupType)
    (naming : String) (rc : Int) (elapsed_str nowIso : String) :
    (finish_backup fs cfg st bt naming rc elapsed_str nowIso).1.running bt = none ∧
    (rc = 0 →
      ((finish_backup fs cfg st bt naming rc elapsed_str nowIso).1.reg.states bt).percent =
        100 ∧
      ((finish_backup fs cfg st bt naming rc elapsed_str nowIso).1.reg.states bt).phase =
        "Complete" ∧
      ((finish_backup fs cfg st bt naming rc elapsed_str nowIso).1.reg.states bt).complete =
        true ∧
      ((finish_backup fs cfg st bt naming rc elapsed_str nowIso).1.reg.states bt).active =
        false ∧
      (finish_backup fs cfg st bt naming rc elapsed_str nowIso).2 = true ∧
      (finish_backup fs cfg st bt naming rc elapsed_str
          nowIso).1.stats.backup_history.getLast? =
        some { btype := bt, timestamp := nowIso,
               size := calculate_backup_size fs cfg bt naming, success := true }) ∧
    (rc ≠ 0 →
      ((finish_backup fs cfg st bt naming rc elapsed_str nowIso).1.reg.states bt).error =
        some ("Failed (code " ++ toString rc ++ ")") ∧
      ((finish_backup fs cfg st bt naming rc elapsed_str nowIso).1.reg.states bt).complete =
        true ∧
      ((finish_backup fs cfg st bt naming rc elapsed_str nowIso).1.reg.states bt).active =
        false ∧
      (finish_backup fs cfg st bt naming rc elapsed_str nowIso).2 = false ∧
      (finish_backup fs cfg st bt naming rc elapsed_str
          nowIso).1.stats.backup_history.getLast? =
        some { btype := bt, timestamp := nowIso, size := 0, success := false }) ∧
    (∀ dir files, fs.pathExists dir = true → fs.listdir dir = .ok files →
      files.filter (fun f => strEnds ".tar.gz".data f.data) ≠ [] →
      ∃ latest, latest ∈ files.filter (fun f => strEnds ".tar.gz".data f.data) ∧
        (∀ g, g ∈ files.filter (fun f => strEnds ".tar.gz".data f.data) →
          lexLe g.data latest.data = true) ∧
        tarLatestSize fs dir = getsizeD fs (pjoin dir latest)) ∧
    (∀ entries, cfg.incremental_enabled = true →
      fs.pathExists (pjoin cfg.backup_destination ("backup_" ++ naming ++ "_rsync")) =
        true →
      fs.pathExists
        (pjoin (pjoin cfg.backup_destination ("backup_" ++ naming ++ "_rsync"))
          "snapshots") = true →
      fs.listdir
        (pjoin (pjoin cfg.backup_destination ("backup_" ++ naming ++ "_rsync"))
          "snapshots") = .ok entries →
      entries.filter (fun d => fs.isdir
        (pjoin (pjoin (pjoin cfg.backup_destination ("backup_" ++ naming ++ "_rsync"))
          "snapshots") d)) ≠ [] →
      ∃ latest, latest ∈ entries.filter (fun d => fs.isdir
          (pjoin (pjoin (pjoin cfg.backup_destination ("backup_" ++ naming ++ "_rsync"))
            "snapshots") d)) ∧
        (∀ g, g ∈ entries.filter (fun d => fs.isdir
            (pjoin (pjoin (pjoin cfg.backup_destination
              ("backup_" ++ naming ++ "_rsync")) "snapshots") d)) →
          lexLe g.data latest.data = true) ∧
        calculate_backup_size fs cfg .appdata naming =
          walkSum fs
            (pjoin (pjoin (pjoin cfg.backup_destination ("backup_" ++ naming ++ "_rsync"))
              "snapshots") latest)) := by
  refine ⟨?_, ?_, ?_, ?_, ?_⟩
  · unfold finish_backup
    split <;> simp
  · intro h
    subst h
    refine ⟨?_, ?_, ?_, ?_, ?_, ?_⟩ <;>
      simp [finish_backup, update_progress, applyUpdate, update_stats_getLast]
  · intro h
    refine ⟨?_, ?_, ?_, ?_, ?_⟩ <;>
      simp [finish_backup, if_neg h, update_progress, applyUpdate, update_stats_getLast]
  · intro dir files hex hls hne
    refine ⟨(pySortDesc nameGe (files.filter (fun f => strEnds ".tar.gz".data f.data))).headD "",
      pySortDesc_headD_mem nameGe _ "" hne, ?_, ?_⟩
    · intro g hg
      exact pySortDesc_headD_max nameGe nameGe_total nameGe_trans nameGe_refl _ "" g hg
    · have hie : (files.filter (fun f => strEnds ".tar.gz".data f.data)).isEmpty = false := by
        rw [Bool.eq_false_iff]
        intro hc
        exact hne (List.isEmpty_iff.mp hc)
      simp only [tarLatestSize, hex, if_true, hls, hie, Bool.false_eq_true, if_false]
      rfl
  · intro entries hinc hexnew hexsnap hls hne
    refine ⟨(pySortDesc nameGe (entries.filter (fun d => fs.isdir
        (pjoin (pjoin (pjoin cfg.backup_destination ("backup_" ++ naming ++ "_rsync"))
          "snapshots") d)))).headD "",
      pySortDesc_headD_mem nameGe _ "" hne, ?_, ?_⟩
    · intro g hg
      exact pySortDesc_headD_max nameGe nameGe_total nameGe_trans nameGe_refl _ "" g hg
    · have hie : (entries.filter (fun d => fs.isdir
          (pjoin (pjoin (pjoin cfg.backup_destination ("backup_" ++ naming ++ "_rsync"))
            "snapshots") d))).isEmpty = false := by
        rw [Bool.eq_false_iff]
        intro hc
        exact hne (List.isEmpty_iff.mp hc)
      simp only [calculate_backup_size, hinc, if_true, hexnew, hexsnap, hls, hie,
        Bool.false_eq_true, if_false]

/-- C3, witness: a concrete exit with code 0 and one with code 3. -/
theorem c3_witness :
    (finish_backup fsEmpty cfgPlain c3St .vm "weekly" 0 "1m 2s" "T").1.running .vm = none ∧
    ((finish_backup fsEmpty cfgPlain c3St .vm "weekly" 0 "1m 2s" "T").1.reg.states
      .vm).phase = "Complete" ∧
    (finish_backup fsEmpty cfgPlain c3St .vm "weekly" 0 "1m 2s"
        "T").1.stats.backup_history.getLast? =
      some { btype := .vm, timestamp := "T",
             size := calculate_backup_size fsEmpty cfgPlain .vm "weekly", success := true } ∧
    ((finish_backup fsEmpty cfgPlain c3St .vm "weekly" 3 "1m 2s" "T").1.reg.states
      .vm).error = some ("Failed (code " ++ toString (3 : Int) ++ ")") ∧
    (finish_backup fsEmpty cfgPlain c3St .vm "weekly" 3 "1m 2s"
        "T").1.stats.backup_history.getLast? =
      some { btype := .vm, timestamp := "T", size := 0, success := false } := by
  have h0 := c3_exit_path fsEmpty cfgPlain c3St .vm "weekly" 0 "1m 2s" "T"
  have h3 := c3_exit_path fsEmpty cfgPlain c3St .vm "weekly" 3 "1m 2s" "T"
  have hb := h0.2.1 rfl
  have hc := h3.2.2.1 (by decide)
  exact ⟨h0.1, hb.2.1, hb.2.2.2.2.2, hc.1, hc.2.2.2.2⟩

theorem artDateGe_total (a b : Artifact) : artDateGe a b = true ∨ artDateGe b a = true := by
  simp only [artDateGe, Nat.ble_eq]
  exact Nat.le_total b.date a.date

theorem artDateGe_trans (a b c : Artifact) (h1 : artDateGe a b = true)
    (h2 : artDateGe b c = true) : artDateGe a c = true := by
  simp only [artDateGe, Nat.ble_eq] at *
  omega

theorem scan_tar_dir_length_le (fs : FS) (p : String) (n : Nat) :
    (scan_tar_dir fs p n).length ≤ n := by
  unfold scan_tar_dir
  split
  · simp
  · split
    · simp
    · refine le_trans (List.length_filterMap_le _ _) ?_
      rw [List.length_take]
      exact min_le_left _ _

theorem scan_tar_dir_sorted_by_name (fs : FS) (p : String) (n : Nat) :
    GeSorted (fun a b : Artifact => nameGe a.name b.name) (scan_tar_dir fs p n) := by
  unfold scan_tar_dir
  split
  · exact List.Pairwise.nil
  · split
    · exact List.Pairwise.nil
    · rename_i files _
      rw [GeSorted, List.pairwise_filterMap]
      have hsorted : GeSorted nameGe
          ((pySortDesc nameGe (files.filter
            (fun f => strEnds ".tar".data f.data || strEnds ".tar.gz".data f.data))).take n) :=
        geSorted_take _ _ _
          (geSorted_pySortDesc nameGe nameGe_total nameGe_trans _)
      refine hsorted.imp ?_
      intro f g hfg a ha b hb
      cases hf : fs.stat (pjoin p f) <;> simp [hf] at ha
      cases hg : fs.stat (pjoin p g) <;> simp [hg] at hb
      subst ha
      subst hb
      exact hfg

theorem scan_rsync_length_le (fs : FS) (p : String) (n : Nat) :
    (scan_rsync_snapshots fs p n).length ≤ n := by
  unfold scan_rsync_snapshots
  dsimp only
  split
  · simp
  · split
    · simp
    · rw [List.length_map, List.length_take]
      exact min_le_left _ _

/-- C6, counterexample.  In `c6Fs`, `/backup/VMs` holds `a.tar` (newer,
mtime minute 1) and `b.tar` (older, mtime minute 0); the scan orders them
by filename descending, so the returned `vms` list is oldest-first, not
newest-first as the claim states for every job class. -/
theorem c6_counterexample :
    ((get_existing_backups c6Fs cfgPlain).vms).map (fun a => a.date) = [0, 1] ∧
    ¬ List.Pairwise (fun a b : Artifact => b.date ≤ a.date)
      (get_existing_backups c6Fs cfgPlain).vms := by
  constructor
  · rfl
  · intro h
    have h1 := List.pairwise_iff_get.mp h ⟨0, by decide⟩ ⟨1, by decide⟩ (by decide)
    exact absurd h1 (by decide)

/-- C6, amended: every per-class list of the inventory scan has at most 5
artifacts; the `vm`/`plugins`/`flash` lists are ordered by filename
descending (newest first only insofar as filenames embed sortable
timestamps); and the appdata list is exactly the merge of the artifacts
discovered under the weekly/daily/monthly `_tar` and `_rsync` variants and
the legacy unsuffixed directories, sorted by timestamp descending and
truncated to 5 — in particular no discovered artifact is dropped unless
five others fill the list. -/
theorem c6_scan_shape (fs : FS) (cfg : Config) :
    (get_existing_backups fs cfg).vms.length ≤ 5 ∧
    (get_existing_backups fs cfg).appdata.length ≤ 5 ∧
    (get_existing_backups fs cfg).plugins.length ≤ 5 ∧
    (get_existing_backups fs cfg).flash.length ≤ 5 ∧
    GeSorted artDateGe (get_existing_backups fs cfg).appdata ∧
    (∀ a, a ∈ (get_existing_backups fs cfg).appdata →
      a ∈ appdata_tar_pool fs cfg.backup_destination ++
        appdata_rsync_pool fs cfg.backup_destination) ∧
    GeSorted (fun a b : Artifact => nameGe a.name b.name) (get_existing_backups fs cfg).vms ∧
    GeSorted (fun a b : Artifact => nameGe a.name b.name)
      (get_existing_backups fs cfg).plugins ∧
    GeSorted (fun a b : Artifact => nameGe a.name b.name)
      (get_existing_backups fs cfg).flash ∧
    (get_existing_backups fs cfg).appdata =
      (pySortDesc artDateGe (appdata_tar_pool fs cfg.backup_destination ++
        appdata_rsync_pool fs cfg.backup_destination)).take 5 ∧
    (∀ a, a ∈ appdata_tar_pool fs cfg.backup_destination ++
        appdata_rsync_pool fs cfg.backup_destination →
      a ∈ (get_existing_backups fs cfg).appdata ∨
        (get_existing_backups fs cfg).appdata.length = 5) := by
  refine ⟨scan_tar_dir_length_le _ _ _, ?_, scan_tar_dir_length_le _ _ _,
    scan_tar_dir_length_le _ _ _, ?_, ?_, scan_tar_dir_sorted_by_name _ _ _,
    scan_tar_dir_sorted_by_name _ _ _, scan_tar_dir_sorted_by_name _ _ _, rfl, ?_⟩
  · show ((pySortDesc artDateGe _).take 5).length ≤ 5
    rw [List.length_take]
    exact min_le_left _ _
  · exact geSorted_take _ _ _
      (geSorted_pySortDesc artDateGe artDateGe_total artDateGe_trans _)
  · intro a ha
    exact (mem_pySortDesc artDateGe _ a).mp (List.mem_of_mem_take ha)
  · intro a ha
    by_cases hlen : (pySortDesc artDateGe (appdata_tar_pool fs cfg.backup_destination ++
        appdata_rsync_pool fs cfg.backup_destination)).length ≤ 5
    · left
      show a ∈ (pySortDesc artDateGe _).take 5
      rw [List.take_of_length_le hlen]
      exact (mem_pySortDesc artDateGe _ a).mpr ha
    · right
      show ((pySortDesc artDateGe _).take 5).length = 5
      rw [List.length_take]
      omega

/-- C6, witness: the amended shape facts on the concrete environment
`c6Fs`, whose scan returns two vm artifacts, including the exact
merge-sort-truncate equation for its appdata list. -/
theorem c6_witness :
    (get_existing_backups c6Fs cfgPlain).vms.length ≤ 5 ∧
    (get_existing_backups c6Fs cfgPlain).appdata.length ≤ 5 ∧
    GeSorted (fun a b : Artifact => nameGe a.name b.name)
      (get_existing_backups c6Fs cfgPlain).vms ∧
    (get_existing_backups c6Fs cfgPlain).appdata =
      (pySortDesc artDateGe (appdata_tar_pool c6Fs cfgPlain.backup_destination ++
        appdata_rsync_pool c6Fs cfgPlain.backup_destination)).take 5 := by
  have h := c6_scan_shape c6Fs cfgPlain
  exact ⟨h.1, h.2.1, h.2.2.2.2.2.2.1, h.2.2.2.2.2.2.2.2.2.1⟩

/-- C8, counterexample.  The claim says every filesystem error —
"stat or size-lookup failure" included — results in zero artifacts for that
location.  In `c8Fs` the single snapshot's `.backup_size` marker exists but
cannot be read and the `du` fallback fails too, yet the scan still returns
that snapshot as one artifact (with the `"~"` size placeholder), not zero. -/
theorem c8_counterexample :
    c8Fs.readFile (pjoin (pjoin (pjoin "/b" "snapshots") "snap1") ".backup_size") =
      .error () ∧
    c8Fs.duSize (pjoin (pjoin "/b" "snapshots") "snap1") = .error () ∧
    (scan_rsync_snapshots c8Fs "/b" 5).length = 1 ∧
    (scan_rsync_snapshots c8Fs "/b" 5).map (fun a => a.size) = [none] := by
  exact ⟨rfl, rfl, rfl, rfl⟩

/-- C8, amended: a missing path or a listing failure yields zero artifacts
for that location; a stat failure drops only the affected entry (every
returned tar artifact carries the data of a successful stat); a size-lookup
failure keeps the snapshot artifact, downgrading only its size to the
placeholder; and the overall scan never aborts: each job class's list is
exactly the scan of its own locations, regardless of what any other
location returned. -/
theorem c8_errors_isolated (fs : FS) (path : String) (n : Nat) (cfg : Config) :
    (fs.pathExists path = false → scan_tar_dir fs path n = []) ∧
    (fs.listdir path = .error () → scan_tar_dir fs path n = []) ∧
    (fs.pathExists (pjoin path "snapshots") = false →
      scan_rsync_snapshots fs path n = []) ∧
    (fs.listdir (pjoin path "snapshots") = .error () →
      scan_rsync_snapshots fs path n = []) ∧
    (∀ a, a ∈ scan_tar_dir fs path n →
      ∃ st, fs.stat a.path = .ok st ∧ a.size = some (st.st_size : Int) ∧
        a.date = st.st_mtime / 60) ∧
    (get_existing_backups fs cfg).vms =
      scan_tar_dir fs (pjoin cfg.backup_destination "VMs") 5 ∧
    (get_existing_backups fs cfg).plugins =
      scan_tar_dir fs (pjoin cfg.backup_destination "plugins") 5 ∧
    (get_existing_backups fs cfg).flash =
      scan_tar_dir fs (pjoin cfg.backup_destination "flash") 5 ∧
    (get_existing_backups fs cfg).appdata =
      (pySortDesc artDateGe (appdata_tar_pool fs cfg.backup_destination ++
        appdata_rsync_pool fs cfg.backup_destination)).take 5 := by
  refine ⟨?_, ?_, ?_, ?_, ?_, rfl, rfl, rfl, rfl⟩
  · intro h
    simp [scan_tar_dir, h]
  · intro h
    by_cases hp : fs.pathExists path <;> simp [scan_tar_dir, hp, h]
  · intro h
    simp [scan_rsync_snapshots, h]
  · intro h
    by_cases hp : fs.pathExists (pjoin path "snapshots") <;>
      simp [scan_rsync_snapshots, hp, h]
  · intro a ha
    unfold scan_tar_dir at ha
    by_cases hp : fs.pathExists path
    · rw [if_neg (by simp [hp])] at ha
      cases hls : fs.listdir path with
      | error e => rw [hls] at ha; simp at ha
      | ok files =>
        rw [hls] at ha
        dsimp only at ha
        rcases List.mem_filterMap.mp ha with ⟨f, _, hfa⟩
        cases hst : fs.stat (pjoin path f) with
        | error e => simp [hst] at hfa
        | ok st =>
          simp only [hst, Option.some.injEq] at hfa
          subst hfa
          exact ⟨st, hst, rfl, rfl⟩
    · rw [if_pos (by simp [hp])] at ha
      simp at ha

/-- C8, witness: on `c8Fs` a missing tar location scans to zero artifacts
while the independent snapshot location still returns its artifact. -/
theorem c8_witness :
    scan_tar_dir c8Fs "/nope" 5 = [] ∧
    (get_existing_backups c8Fs cfgPlain).vms =
      scan_tar_dir c8Fs (pjoin cfgPlain.backup_destination "VMs") 5 := by
  have h := c8_errors_isolated c8Fs "/nope" 5 cfgPlain
  exact ⟨h.1 rfl, h.2.2.2.2.2.1⟩
